import Mathlib

/-!
The socks5-server program: the configuration glue and the deadline-stamping listener.

A shallow embedding of `server.go`:

* `params`, the settings struct filled by `env.Parse`;
* `ListenerWithTimeout` with its methods `Accept`, `Close`, `Addr`;
* `main`: building the engine configuration, binding, wrapping, serving.

The packages `net`, `time`, `os` and the SOCKS5 engine are collaborators of the
program. Their operations are taken as parameters (`Net`, `Engine`, `getenv`),
so every theorem holds for every behaviour of those collaborators.
-/

namespace Socks5Server

/-! ## Basic types -/

/-- Go `error` values are `Option Err`; `none` is the nil error. -/
abbrev Err := String

/-- Instants of `time.Time`, in nanoseconds. -/
abbrev Time := Int

/-- Values of `time.Duration`: a signed count of nanoseconds. -/
abbrev Duration := Int

/-- Handles of `net.Conn` values. -/
abbrev Conn := Nat

/-- Handles of `net.Listener` values implemented outside this program. -/
abbrev Sock := Nat

/-- Values of `net.Addr`. -/
abbrev NetAddr := String

/-! ## Configuration (`server.go` lines 13-19 and 59-74) -/

/-- The struct `params` (lines 13-19). -/
structure params where
  User : String
  Password : String
  Port : String
  AllowedDestFqdn : String
  ConnectionTimeout : Duration
  deriving DecidableEq, Repr

/-- The type `socks5.StaticCredentials`, a `map[string]string`, as an association list. -/
abbrev StaticCredentials := List (String × String)

/-- The engine's `socks5.Authenticator` implementations. -/
inductive Authenticator where
  | NoAuthAuthenticator
  | UserPassAuthenticator (Credentials : StaticCredentials)
  deriving DecidableEq, Repr

/-- The value `log.New(os.Stdout, "", log.LstdFlags)`: writer, line header, flags. -/
structure Logger where
  out : String
  header : String
  flag : Nat
  deriving DecidableEq, Repr

/-- The fields of `socks5.Config` that `main` touches. The rule-set type `ρ` is the type
of what `PermitDestAddrPattern` returns. A nil slice is `[]`, a nil interface is `none`. -/
structure Config (ρ : Type) where
  Logger : Option Logger
  AuthMethods : List Authenticator
  Rules : Option ρ

/-- Lines 60-62 of `main`: the initial `socks5.Config` literal. -/
def initialConf (ρ : Type) : Config ρ :=
  { Logger := some { out := "os.Stdout", header := "", flag := 3 }
    AuthMethods := []
    Rules := none }

/-- Lines 64-70 of `main`: the credential branch. `getenv` is `os.Getenv`. -/
def installAuth {ρ : Type} (getenv : String → String) (cfg : params) (conf : Config ρ) :
    Config ρ :=
  if cfg.User ++ cfg.Password != "" then
    let creds : StaticCredentials := [(getenv "PROXY_USER", getenv "PROXY_PASSWORD")]
    let cator := Authenticator.UserPassAuthenticator creds
    { conf with AuthMethods := [cator] }
  else conf

/-- Lines 72-74 of `main`: the rule-set branch. `permit` is `PermitDestAddrPattern`. -/
def installRules {ρ : Type} (permit : String → ρ) (cfg : params) (conf : Config ρ) :
    Config ρ :=
  if cfg.AllowedDestFqdn != "" then
    { conf with Rules := some (permit cfg.AllowedDestFqdn) }
  else conf

/-- Lines 59-74 of `main`: the `socks5.Config` handed to `socks5.New`. -/
def socks5conf {ρ : Type} (permit : String → ρ) (getenv : String → String) (cfg : params) :
    Config ρ :=
  installRules permit cfg (installAuth getenv cfg (initialConf ρ))

/-! ## The listener wrapper (`server.go` lines 21-49) -/

/-- The struct `ListenerWithTimeout` (lines 22-25): the embedded `net.Listener` and the
timeout. The embedded listener is any implementation living outside the program, named by
its handle; what it does is given by `Net`. -/
structure ListenerWithTimeout where
  Listener : Sock
  timeout : Duration
  deriving DecidableEq, Repr

/-- The dynamic value of the variable `l` of `main` (interface type `net.Listener`): the
listener bound by `net.Listen`, or a pointer to a `ListenerWithTimeout` (lines 87-90). -/
inductive Listener where
  | bound (l : Sock)
  | withTimeout (l : ListenerWithTimeout)
  deriving DecidableEq, Repr

/-- What `net.Listen` returns: a non-nil listener with a nil error, or a non-nil error. -/
inductive ListenResult where
  | ok (l : Sock)
  | error (err : Err)
  deriving DecidableEq, Repr

/-- One call made by the program to a collaborator, with what the collaborator answered. -/
inductive Call where
  | Listen (network address : String) (res : ListenResult)
  | Accept (l : Sock) (conn : Option Conn) (err : Option Err)
  | Close (l : Sock) (err : Option Err)
  | Addr (l : Sock) (a : NetAddr)
  | SetDeadline (c : Conn) (t : Time) (err : Option Err)
  | ConnClose (c : Conn) (err : Option Err)
  | Now (t : Time)
  | Serve (l : Listener)
  deriving DecidableEq, Repr

/-- The operations of packages `net` and `time` the program calls, as transitions of the
state `σ` of the world outside the program. `Listen` gives a non-nil listener exactly when
its error is nil; `Accept` gives the pair `(net.Conn, error)`, each possibly nil; `Addr` is a
read-only accessor. -/
structure Net (σ : Type) where
  Listen : String → String → σ → ListenResult × σ
  Accept : Sock → σ → (Option Conn × Option Err) × σ
  Close : Sock → σ → Option Err × σ
  Addr : Sock → σ → NetAddr
  SetDeadline : Conn → Time → σ → Option Err × σ
  ConnClose : Conn → σ → Option Err × σ
  Now : σ → Time × σ

/-- The outside world together with the list of calls the program has made so far. -/
structure World (σ : Type) where
  st : σ
  trace : List Call
  deriving DecidableEq

/-- Calls `net.Listen(network, address)`. -/
def callListen {σ : Type} (net : Net σ) (network address : String) (w : World σ) :
    ListenResult × World σ :=
  let r := net.Listen network address w.st
  (r.1, { st := r.2, trace := w.trace ++ [Call.Listen network address r.1] })

/-- Calls `Accept()` of the listener `l`. -/
def callAccept {σ : Type} (net : Net σ) (l : Sock) (w : World σ) :
    (Option Conn × Option Err) × World σ :=
  let r := net.Accept l w.st
  (r.1, { st := r.2, trace := w.trace ++ [Call.Accept l r.1.1 r.1.2] })

/-- Calls `Close()` of the listener `l`. -/
def callClose {σ : Type} (net : Net σ) (l : Sock) (w : World σ) : Option Err × World σ :=
  let r := net.Close l w.st
  (r.1, { st := r.2, trace := w.trace ++ [Call.Close l r.1] })

/-- Calls `Addr()` of the listener `l`. -/
def callAddr {σ : Type} (net : Net σ) (l : Sock) (w : World σ) : NetAddr × World σ :=
  let a := net.Addr l w.st
  (a, { st := w.st, trace := w.trace ++ [Call.Addr l a] })

/-- Calls `time.Now()`. -/
def callNow {σ : Type} (net : Net σ) (w : World σ) : Time × World σ :=
  let r := net.Now w.st
  (r.1, { st := r.2, trace := w.trace ++ [Call.Now r.1] })

/-- Calls `conn.SetDeadline(t)`. -/
def callSetDeadline {σ : Type} (net : Net σ) (conn : Conn) (t : Time) (w : World σ) :
    Option Err × World σ :=
  let r := net.SetDeadline conn t w.st
  (r.1, { st := r.2, trace := w.trace ++ [Call.SetDeadline conn t r.1] })

/-- What a Go call does: it returns a value, or the goroutine panics on a nil dereference. -/
inductive Ret (α : Type) where
  | ret (a : α)
  | nilPanic
  deriving DecidableEq, Repr

/-- The method `Accept` of `ListenerWithTimeout` (lines 28-39). `Time.Add` is addition of
nanoseconds. When the embedded listener answers `(nil, nil)`, the call of `SetDeadline` on
the nil interface panics, after its argument `time.Now().Add(l.timeout)` was evaluated. -/
def ListenerWithTimeout.Accept {σ : Type} (net : Net σ) (l : ListenerWithTimeout)
    (w : World σ) : Ret (Option Conn × Option Err) × World σ :=
  match callAccept net l.Listener w with
  | ((conn, some err), w1) => (Ret.ret (conn, some err), w1)
  | ((none, none), w1) => (Ret.nilPanic, (callNow net w1).2)
  | ((some conn, none), w1) =>
    let now := callNow net w1
    match callSetDeadline net conn (now.1 + l.timeout) now.2 with
    | (some err, w3) => (Ret.ret (some conn, some err), w3)
    | (none, w3) => (Ret.ret (some conn, none), w3)

/-- The method `Close` of `ListenerWithTimeout` (lines 42-44). -/
def ListenerWithTimeout.Close {σ : Type} (net : Net σ) (l : ListenerWithTimeout)
    (w : World σ) : Option Err × World σ :=
  callClose net l.Listener w

/-- The method `Addr` of `ListenerWithTimeout` (lines 47-49). -/
def ListenerWithTimeout.Addr {σ : Type} (net : Net σ) (l : ListenerWithTimeout)
    (w : World σ) : NetAddr × World σ :=
  callAddr net l.Listener w

/-- Dynamic dispatch of `l.Accept()` on a `net.Listener` interface value. -/
def Listener.Accept {σ : Type} (net : Net σ) : Listener → World σ →
    Ret (Option Conn × Option Err) × World σ
  | Listener.bound s, w => let r := callAccept net s w; (Ret.ret r.1, r.2)
  | Listener.withTimeout l, w => l.Accept net w

/-! ## `main` (`server.go` lines 51-96) -/

/-- What `Serve` does as seen by `main`: it returns an error value (possibly nil), it is
still serving (it has not returned), or it panicked. -/
inductive ServeResult where
  | returned (err : Option Err)
  | serving
  | panicked
  deriving DecidableEq, Repr

/-- The SOCKS5 engine (package `go-socks5`) as `main` uses it: `socks5.New(conf)` gives a
server of type `sv` and an error, `server.Serve(l)` runs the accept loop on `l`. -/
structure Engine (σ ρ sv : Type) where
  New : Config ρ → sv × Option Err
  Serve : sv → Listener → World σ → ServeResult × World σ

/-- How the process stands after `main`: ended by `log.Fatal` (exit status 1), ended by a
panic, `main` returned, or the process is alive inside `Serve`. -/
inductive Exit where
  | fatal (err : Err)
  | panicked
  | returned
  | serving
  deriving DecidableEq, Repr

/-- Lines 86-91 of `main`: the listener handed to `Serve`, from the bound listener `l`. -/
def servedListener (cfg : params) (l : Sock) : Listener :=
  if cfg.ConnectionTimeout > 0 then
    Listener.withTimeout { Listener := l, timeout := cfg.ConnectionTimeout }
  else Listener.bound l

/-- Calls `server.Serve(l)`. -/
def callServe {σ ρ sv : Type} (eng : Engine σ ρ sv) (server : sv) (l : Listener)
    (w : World σ) : ServeResult × World σ :=
  eng.Serve server l { st := w.st, trace := w.trace ++ [Call.Serve l] }

/-- The function `main` (lines 51-96), from the `cfg` that `env.Parse` left (line 54; its
error is only logged). Writes to the log are not modelled. -/
def main {σ ρ sv : Type} (eng : Engine σ ρ sv) (net : Net σ) (permit : String → ρ)
    (getenv : String → String) (cfg : params) (w : World σ) : Exit × World σ :=
  match eng.New (socks5conf permit getenv cfg) with
  | (_, some err) => (Exit.fatal err, w)
  | (server, none) =>
    match callListen net "tcp" (":" ++ cfg.Port) w with
    | (ListenResult.error err, w1) => (Exit.fatal err, w1)
    | (ListenResult.ok l, w1) =>
      match callServe eng server (servedListener cfg l) w1 with
      | (ServeResult.returned (some err), w2) => (Exit.fatal err, w2)
      | (ServeResult.returned none, w2) => (Exit.returned, w2)
      | (ServeResult.serving, w2) => (Exit.serving, w2)
      | (ServeResult.panicked, w2) => (Exit.panicked, w2)

/-! ## The destination policy -/

/-- Modelled from the spec: the request seen by the rule set (spec section 3,
DestinationRequest): destination host and destination port. The engine's type
`socks5.Request` is not in `server.go`. -/
structure DestinationRequest where
  host : String
  port : Int
  deriving DecidableEq, Repr

/-- Modelled from the spec: the rule set returned by `PermitDestAddrPattern`, which is not
in `server.go`; it holds the one configured allow-pattern (spec section 4.1). -/
structure DestinationPolicy where
  pattern : String
  deriving DecidableEq, Repr

/-- Modelled from the spec: the constructor `PermitDestAddrPattern` called at line 73, whose
definition is not in `server.go`: "Construction takes one configuration string, the
allow-pattern". -/
def PermitDestAddrPattern (pattern : String) : DestinationPolicy :=
  { pattern := pattern }

/-- The characters of a name with ASCII letters lowered: DNS names compare without case. -/
def lower (s : String) : List Char :=
  s.data.map Char.toLower

/-- Modelled from the spec: the method `Allow` of the rule set, not in `server.go`
(spec section 4.1). Only the host is matched, without case. A pattern beginning with `*.`
matches a host that goes on with the text after the wildcard, the wildcard standing for a
non-empty leading part (so neither the bare base domain nor the empty host matches); any
other pattern requires equality. -/
def DestinationPolicy.Allow (p : DestinationPolicy) (req : DestinationRequest) : Bool :=
  let host := lower req.host
  match lower p.pattern with
  | '*' :: '.' :: base =>
    let suffix := '.' :: base
    decide (suffix.length < host.length) && suffix.isSuffixOf host
  | pat => host == pat

/-! ## An accept loop and a simulated network, to run the model on concrete inputs -/

/-- An accept loop for `Engine.Serve`, run for at most `fuel` rounds: each round calls
`l.Accept()`; an error ends the loop and is returned; otherwise the connection is handed to
a handler goroutine (not modelled) and the loop goes on. This is the loop of `Server.Serve`
in the imported engine package, which is not part of this repository. After `fuel` rounds
without an error the loop is still serving. -/
def acceptLoop {σ : Type} (net : Net σ) : Nat → Listener → World σ → ServeResult × World σ
  | 0, _, w => (ServeResult.serving, w)
  | fuel + 1, l, w =>
    match Listener.Accept net l w with
    | (Ret.nilPanic, w1) => (ServeResult.panicked, w1)
    | (Ret.ret (_, some err), w1) => (ServeResult.returned (some err), w1)
    | (Ret.ret (_, none), w1) => acceptLoop net fuel l w1

/-- The engine whose `New` accepts every configuration and whose `Serve` is `acceptLoop`. -/
def loopEngine {σ : Type} (ρ : Type) (net : Net σ) (fuel : Nat) : Engine σ ρ (Config ρ) :=
  { New := fun conf => (conf, none)
    Serve := fun _ l w => acceptLoop net fuel l w }

/-- State of a simulated network: the clock, what successive `Accept` calls will answer,
the connections on which `SetDeadline` fails, the deadlines in force, the closed
connections, and whether the listener is closed. -/
structure Sim where
  clock : Time
  script : List (Option Conn × Option Err)
  broken : List Conn
  deadlines : List (Conn × Time)
  closedConns : List Conn
  listenerClosed : Bool
  deriving DecidableEq, Repr

/-- A simulated network stack over `Sim`, with a single listener of handle 7. -/
def simNet : Net Sim :=
  { Listen := fun _ address s =>
      if address = ":" then (ListenResult.error "listen tcp: missing port", s)
      else (ListenResult.ok 7, s)
    Accept := fun _ s =>
      match s.script with
      | [] => ((none, some "accept: use of closed network connection"), s)
      | r :: rest => (r, { s with script := rest })
    Close := fun _ s =>
      if s.listenerClosed then (some "close: use of closed network connection", s)
      else (none, { s with listenerClosed := true })
    Addr := fun _ _ => "[::]:1080"
    SetDeadline := fun c t s =>
      if c ∈ s.broken then (some "set deadline: use of closed network connection", s)
      else (none, { s with deadlines := (c, t) :: s.deadlines.filter (fun d => d.1 != c) })
    ConnClose := fun c s => (none, { s with closedConns := c :: s.closedConns })
    Now := fun s => (s.clock, s) }

/-- A simulated world at clock reading 1000 with the given `Accept` answers, in which
`SetDeadline` fails on the connections of `broken`. -/
def simWorld (script : List (Option Conn × Option Err)) (broken : List Conn) : World Sim :=
  { st := { clock := 1000, script := script, broken := broken, deadlines := [],
            closedConns := [], listenerClosed := false }
    trace := [] }

/-- The environment in which `PROXY_USER` and `PROXY_PASSWORD` have the given values and
every other variable is unset: `os.Getenv` in that environment. -/
def envOf (user password : String) : String → String :=
  fun key =>
    if key = "PROXY_USER" then user
    else if key = "PROXY_PASSWORD" then password
    else ""

/-- The `params` that `env.Parse` yields for the given credentials, pattern and timeout,
with the default port. -/
def cfgOf (user password pattern : String) (timeout : Duration) : params :=
  { User := user, Password := password, Port := "1080",
    AllowedDestFqdn := pattern, ConnectionTimeout := timeout }

/-- Whether a call is `Close()` on a connection. -/
def Call.isConnClose : Call → Bool
  | Call.ConnClose _ _ => true
  | _ => false

/-- What the embedded listener answers to the `Accept()` call made by
`ListenerWithTimeout.Accept` in the world `w`, and the state it leaves. -/
def underlyingAccept {σ : Type} (net : Net σ) (l : ListenerWithTimeout) (w : World σ) :
    (Option Conn × Option Err) × σ :=
  net.Accept l.Listener w.st

/-- The clock reading `time.Now()` gives right after the embedded `Accept()` returned, and
the state it leaves. -/
def clockAfterAccept {σ : Type} (net : Net σ) (l : ListenerWithTimeout) (w : World σ) :
    Time × σ :=
  net.Now (underlyingAccept net l w).2

/-- What `SetDeadline` answers on the connection `c` for the instant "clock reading plus
`l.timeout`", called right after that clock reading, and the state it leaves. -/
def deadlineAnswer {σ : Type} (net : Net σ) (l : ListenerWithTimeout) (w : World σ)
    (c : Conn) : Option Err × σ :=
  net.SetDeadline c ((clockAfterAccept net l w).1 + l.timeout) (clockAfterAccept net l w).2

/-! ## Lemmas -/

theorem append_eq_empty_iff (a b : String) : a ++ b = "" ↔ a = "" ∧ b = "" := by
  simp [String.ext_iff, String.data_append]

theorem installRules_AuthMethods {ρ : Type} (permit : String → ρ) (cfg : params)
    (conf : Config ρ) : (installRules permit cfg conf).AuthMethods = conf.AuthMethods := by
  unfold installRules
  split <;> rfl

theorem installAuth_Rules {ρ : Type} (getenv : String → String) (cfg : params)
    (conf : Config ρ) : (installAuth getenv cfg conf).Rules = conf.Rules := by
  unfold installAuth
  split <;> rfl

theorem socks5conf_AuthMethods {ρ : Type} (permit : String → ρ) (getenv : String → String)
    (cfg : params) :
    (socks5conf permit getenv cfg).AuthMethods =
      if cfg.User = "" ∧ cfg.Password = "" then []
      else [Authenticator.UserPassAuthenticator
              [(getenv "PROXY_USER", getenv "PROXY_PASSWORD")]] := by
  unfold socks5conf
  rw [installRules_AuthMethods]
  unfold installAuth
  by_cases h : cfg.User = "" ∧ cfg.Password = ""
  · have h2 : cfg.User ++ cfg.Password = "" := (append_eq_empty_iff _ _).2 h
    simp [h, h2, initialConf]
  · have h2 : cfg.User ++ cfg.Password ≠ "" := fun hh => h ((append_eq_empty_iff _ _).1 hh)
    simp [h, h2]

theorem socks5conf_Rules {ρ : Type} (permit : String → ρ) (getenv : String → String)
    (cfg : params) :
    (socks5conf permit getenv cfg).Rules =
      if cfg.AllowedDestFqdn = "" then none else some (permit cfg.AllowedDestFqdn) := by
  unfold socks5conf installRules
  by_cases h : cfg.AllowedDestFqdn = ""
  · simp [h, installAuth_Rules, initialConf]
  · simp [h]

theorem Accept_of_error {σ : Type} (net : Net σ) (l : ListenerWithTimeout) (w : World σ)
    (conn : Option Conn) (e : Err) (h : (underlyingAccept net l w).1 = (conn, some e)) :
    l.Accept net w = (Ret.ret (conn, some e),
      { st := (underlyingAccept net l w).2,
        trace := w.trace ++ [Call.Accept l.Listener conn (some e)] }) := by
  unfold underlyingAccept at h
  simp only [ListenerWithTimeout.Accept, callAccept, underlyingAccept, h]

theorem Accept_of_nil {σ : Type} (net : Net σ) (l : ListenerWithTimeout) (w : World σ)
    (h : (underlyingAccept net l w).1 = (none, none)) :
    (l.Accept net w).1 = Ret.nilPanic := by
  unfold underlyingAccept at h
  simp only [ListenerWithTimeout.Accept, callAccept, h]

theorem Accept_of_conn {σ : Type} (net : Net σ) (l : ListenerWithTimeout) (w : World σ)
    (c : Conn) (h : (underlyingAccept net l w).1 = (some c, none)) :
    l.Accept net w = (Ret.ret (some c, (deadlineAnswer net l w c).1),
      { st := (deadlineAnswer net l w c).2,
        trace := w.trace ++ [Call.Accept l.Listener (some c) none,
          Call.Now (clockAfterAccept net l w).1,
          Call.SetDeadline c ((clockAfterAccept net l w).1 + l.timeout)
            (deadlineAnswer net l w c).1] }) := by
  unfold underlyingAccept at h
  simp only [ListenerWithTimeout.Accept, callAccept, callNow, callSetDeadline, h,
    deadlineAnswer, clockAfterAccept, underlyingAccept]
  cases hd : (net.SetDeadline c ((net.Now (net.Accept l.Listener w.st).2).1 + l.timeout)
      (net.Now (net.Accept l.Listener w.st).2).2).1 <;>
    simp [hd, List.append_assoc]

theorem lower_wildcard (S : String) : lower ("*." ++ S) = '*' :: '.' :: lower S := by
  simp [lower, String.data_append]

theorem Allow_wildcard (S host : String) (port : Int) :
    (PermitDestAddrPattern ("*." ++ S)).Allow { host := host, port := port }
      = (decide (('.' :: lower S).length < (lower host).length)
          && ('.' :: lower S).isSuffixOf (lower host)) := by
  simp only [DestinationPolicy.Allow, PermitDestAddrPattern, lower_wildcard]

/-! ## Claims on the configuration -/

/-- C1, as stated, fails: with user "u" and an empty password, `main` installs an
authenticator (`AuthMethods` is not empty) although not both credentials are non-empty. -/
theorem auth_installed_user_only :
    (socks5conf PermitDestAddrPattern (envOf "u" "") (cfgOf "u" "" "" 0)).AuthMethods
        = [Authenticator.UserPassAuthenticator [("u", "")]]
      ∧ ¬ ((socks5conf PermitDestAddrPattern (envOf "u" "") (cfgOf "u" "" "" 0)).AuthMethods ≠ []
            ↔ ((cfgOf "u" "" "" 0).User ≠ "" ∧ (cfgOf "u" "" "" 0).Password ≠ "")) := by
  decide

/-- C1, amended: `main` installs an authenticator (`AuthMethods` non-empty) if and only if
at least one of user and password is non-empty (the test is `cfg.User+cfg.Password != ""`);
the list is left empty exactly when both are empty. -/
theorem auth_installed_iff {ρ : Type} (permit : String → ρ) (getenv : String → String)
    (cfg : params) :
    ((socks5conf permit getenv cfg).AuthMethods ≠ [] ↔ (cfg.User ≠ "" ∨ cfg.Password ≠ ""))
      ∧ ((socks5conf permit getenv cfg).AuthMethods = []
          ↔ (cfg.User = "" ∧ cfg.Password = "")) := by
  rw [socks5conf_AuthMethods]
  by_cases hu : cfg.User = "" <;> by_cases hp : cfg.Password = "" <;> simp [hu, hp]

/-- C5: `main` installs a rule set if and only if the allow-pattern is non-empty; the
installed rule set is `PermitDestAddrPattern` of exactly that pattern, and for the empty
pattern `Rules` stays unset. -/
theorem rules_installed_iff {ρ : Type} (permit : String → ρ) (getenv : String → String)
    (cfg : params) :
    ((socks5conf permit getenv cfg).Rules ≠ none ↔ cfg.AllowedDestFqdn ≠ "")
      ∧ (socks5conf permit getenv cfg).Rules
          = if cfg.AllowedDestFqdn = "" then none else some (permit cfg.AllowedDestFqdn) := by
  rw [socks5conf_Rules]
  by_cases h : cfg.AllowedDestFqdn = "" <;> simp [h]

/-- C9: whenever `main` installs the authenticator, `AuthMethods` is a single user/password
authenticator whose store has the single entry `PROXY_USER ↦ PROXY_PASSWORD` as read by
`os.Getenv`; when these equal `cfg.User` and `cfg.Password`, the entry is
`cfg.User ↦ cfg.Password`, so a password alone gives `"" ↦ password` and a user alone gives
`user ↦ ""`. -/
theorem auth_store_single_entry {ρ : Type} (permit : String → ρ) (getenv : String → String)
    (cfg : params) (hinst : (socks5conf permit getenv cfg).AuthMethods ≠ []) :
    (socks5conf permit getenv cfg).AuthMethods
        = [Authenticator.UserPassAuthenticator
            [(getenv "PROXY_USER", getenv "PROXY_PASSWORD")]]
      ∧ (cfg.User = getenv "PROXY_USER" → cfg.Password = getenv "PROXY_PASSWORD" →
          (socks5conf permit getenv cfg).AuthMethods
              = [Authenticator.UserPassAuthenticator [(cfg.User, cfg.Password)]]
            ∧ (cfg.User = "" → (socks5conf permit getenv cfg).AuthMethods
                = [Authenticator.UserPassAuthenticator [("", cfg.Password)]])
            ∧ (cfg.Password = "" → (socks5conf permit getenv cfg).AuthMethods
                = [Authenticator.UserPassAuthenticator [(cfg.User, "")]])) := by
  have key : (socks5conf permit getenv cfg).AuthMethods
      = [Authenticator.UserPassAuthenticator
          [(getenv "PROXY_USER", getenv "PROXY_PASSWORD")]] := by
    rw [socks5conf_AuthMethods] at hinst ⊢
    by_cases h : cfg.User = "" ∧ cfg.Password = ""
    · simp [h] at hinst
    · simp [h]
  refine ⟨key, fun hU hP => ?_⟩
  rw [key, ← hU, ← hP]
  refine ⟨rfl, fun h => ?_, fun h => ?_⟩
  · rw [h]
  · rw [h]

/-- C9 at a concrete input: only the password is set (`PROXY_PASSWORD = "pw"`); the
authenticator is installed and its store maps the empty user name to "pw". -/
theorem auth_store_single_entry_password_only :
    (socks5conf PermitDestAddrPattern (envOf "" "pw") (cfgOf "" "pw" "" 0)).AuthMethods ≠ []
      ∧ (socks5conf PermitDestAddrPattern (envOf "" "pw") (cfgOf "" "pw" "" 0)).AuthMethods
          = [Authenticator.UserPassAuthenticator [("", "pw")]] :=
  ⟨by decide,
   ((auth_store_single_entry PermitDestAddrPattern (envOf "" "pw") (cfgOf "" "pw" "" 0)
      (by decide)).2 (by decide) (by decide)).2.1 (by decide)⟩

/-! ## Claims on `ListenerWithTimeout` -/

/-- C2: when the embedded listener's `Accept` succeeds with connection `c` and the clock
then reads `t`, `Accept` makes exactly one deadline call, `c.SetDeadline(t + timeout)`,
leaves the world as that call left it, and, when that call succeeds, returns `c` with a nil
error. -/
theorem Accept_sets_deadline {σ : Type} (net : Net σ) (l : ListenerWithTimeout)
    (w : World σ) (c : Conn) (t : Time) (s1 s2 : σ)
    (hacc : net.Accept l.Listener w.st = ((some c, none), s1))
    (hnow : net.Now s1 = (t, s2)) :
    (l.Accept net w).2.trace
        = w.trace ++ [Call.Accept l.Listener (some c) none, Call.Now t,
            Call.SetDeadline c (t + l.timeout) (net.SetDeadline c (t + l.timeout) s2).1]
      ∧ (l.Accept net w).2.st = (net.SetDeadline c (t + l.timeout) s2).2
      ∧ ((net.SetDeadline c (t + l.timeout) s2).1 = none →
          (l.Accept net w).1 = Ret.ret (some c, none)) := by
  have h : (underlyingAccept net l w).1 = (some c, none) := by
    simp [underlyingAccept, hacc]
  have hc : clockAfterAccept net l w = (t, s2) := by
    simp [clockAfterAccept, underlyingAccept, hacc, hnow]
  rw [Accept_of_conn net l w c h]
  simp only [deadlineAnswer, hc]
  refine ⟨trivial, trivial, fun h0 => ?_⟩
  rw [h0]

/-- C2 on the simulated network: timeout 5000, connection 1 accepted at clock 1000; the
deadline call is `SetDeadline(6000)` on connection 1, the deadline in force afterwards is
6000, and connection 1 is returned with a nil error. -/
theorem Accept_sets_deadline_sim :
    (({ Listener := 7, timeout := 5000 } : ListenerWithTimeout).Accept simNet
        (simWorld [(some 1, none)] [])).2.trace
        = [Call.Accept 7 (some 1) none, Call.Now 1000, Call.SetDeadline 1 6000 none]
      ∧ (({ Listener := 7, timeout := 5000 } : ListenerWithTimeout).Accept simNet
          (simWorld [(some 1, none)] [])).2.st.deadlines = [(1, 6000)]
      ∧ (({ Listener := 7, timeout := 5000 } : ListenerWithTimeout).Accept simNet
          (simWorld [(some 1, none)] [])).1 = Ret.ret (some 1, none) := by
  have h := Accept_sets_deadline simNet { Listener := 7, timeout := 5000 }
    (simWorld [(some 1, none)] []) 1 1000
    { clock := 1000, script := [], broken := [], deadlines := [],
      closedConns := [], listenerClosed := false }
    { clock := 1000, script := [], broken := [], deadlines := [],
      closedConns := [], listenerClosed := false } rfl rfl
  refine ⟨h.1, ?_, h.2.2 rfl⟩
  rw [h.2.1]
  rfl

/-- C3: `Accept` returns a non-nil error `e` exactly when the embedded `Accept` failed
with `e`, or it succeeded with a connection on which `SetDeadline` failed with `e`. In the
first case the embedded `Accept` is the only call made (no deadline call at all); and an
`Accept` that returns a nil error returns a connection on which its `SetDeadline` call
succeeded. -/
theorem Accept_error_iff {σ : Type} (net : Net σ) (l : ListenerWithTimeout) (w : World σ) :
    (∀ (conn : Option Conn) (e : Err),
        (l.Accept net w).1 = Ret.ret (conn, some e) ↔
          ((underlyingAccept net l w).1 = (conn, some e)
            ∨ ∃ c, (underlyingAccept net l w).1 = (some c, none) ∧ conn = some c
                ∧ (deadlineAnswer net l w c).1 = some e))
      ∧ (∀ (conn : Option Conn) (e : Err), (underlyingAccept net l w).1 = (conn, some e) →
          (l.Accept net w).2.st = (underlyingAccept net l w).2
            ∧ (l.Accept net w).2.trace = w.trace ++ [Call.Accept l.Listener conn (some e)])
      ∧ (∀ (conn : Option Conn), (l.Accept net w).1 = Ret.ret (conn, none) →
          ∃ c, conn = some c ∧ (deadlineAnswer net l w c).1 = none
            ∧ (l.Accept net w).2.trace
                = w.trace ++ [Call.Accept l.Listener (some c) none,
                    Call.Now (clockAfterAccept net l w).1,
                    Call.SetDeadline c ((clockAfterAccept net l w).1 + l.timeout) none]) := by
  rcases hu : (underlyingAccept net l w).1 with ⟨uc, ue⟩
  cases ue with
  | some e0 =>
    have hA := Accept_of_error net l w uc e0 hu
    refine ⟨fun conn e => ?_, fun conn e h => ?_, fun conn h => ?_⟩
    · rw [hA]
      constructor
      · intro h
        simp only [Ret.ret.injEq, Prod.mk.injEq, Option.some.injEq] at h
        left
        rw [h.1, h.2]
      · rintro (h | ⟨c, h, _⟩)
        · simp only [Prod.mk.injEq, Option.some.injEq] at h
          rw [h.1, h.2]
        · simp at h
    · simp only [Prod.mk.injEq, Option.some.injEq] at h
      rw [hA, ← h.1, ← h.2]
      exact ⟨rfl, rfl⟩
    · rw [hA] at h
      simp at h
  | none =>
    cases uc with
    | none =>
      have hA := Accept_of_nil net l w hu
      refine ⟨fun conn e => ?_, fun conn e h => ?_, fun conn h => ?_⟩
      · rw [hA]
        constructor
        · intro h
          simp at h
        · rintro (h | ⟨c, h, _⟩) <;> simp at h
      · simp at h
      · rw [hA] at h
        simp at h
    | some c0 =>
      have hA := Accept_of_conn net l w c0 hu
      refine ⟨fun conn e => ?_, fun conn e h => ?_, fun conn h => ?_⟩
      · rw [hA]
        constructor
        · intro h
          simp only [Ret.ret.injEq, Prod.mk.injEq] at h
          right
          exact ⟨c0, rfl, h.1.symm, h.2⟩
        · rintro (h | ⟨c, h, hc, hd⟩)
          · simp at h
          · simp only [Prod.mk.injEq, Option.some.injEq, and_true] at h
            subst h
            rw [hc, hd]
      · simp at h
      · rw [hA] at h ⊢
        simp only [Ret.ret.injEq, Prod.mk.injEq] at h
        refine ⟨c0, h.1.symm, h.2, ?_⟩
        simp only [h.2]

/-- C3 on the simulated network: timeout 5000; the embedded `Accept` fails with "EMFILE":
the wrapper returns exactly that error, and its only call is the embedded `Accept`. -/
theorem Accept_error_iff_sim :
    (({ Listener := 7, timeout := 5000 } : ListenerWithTimeout).Accept simNet
        (simWorld [(none, some "EMFILE")] [])).1 = Ret.ret (none, some "EMFILE")
      ∧ (({ Listener := 7, timeout := 5000 } : ListenerWithTimeout).Accept simNet
          (simWorld [(none, some "EMFILE")] [])).2.trace
          = [Call.Accept 7 none (some "EMFILE")] :=
  ⟨((Accept_error_iff simNet { Listener := 7, timeout := 5000 }
      (simWorld [(none, some "EMFILE")] [])).1 none "EMFILE").2 (Or.inl rfl),
   ((Accept_error_iff simNet { Listener := 7, timeout := 5000 }
      (simWorld [(none, some "EMFILE")] [])).2.1 none "EMFILE" rfl).2⟩

/-- C10: `Accept` never calls `Close` on a connection; and when the embedded `Accept`
succeeds with `c` but `SetDeadline` on `c` fails with `e`, `Accept` returns `c` itself
together with `e`, its only deadline call is the failed one, and the world is left as that
failed call left it. -/
theorem Accept_never_closes {σ : Type} (net : Net σ) (l : ListenerWithTimeout)
    (w : World σ) :
    (∃ delta, (l.Accept net w).2.trace = w.trace ++ delta
        ∧ ∀ x ∈ delta, x.isConnClose = false)
      ∧ (∀ (c : Conn) (e : Err), (underlyingAccept net l w).1 = (some c, none) →
          (deadlineAnswer net l w c).1 = some e →
          (l.Accept net w).1 = Ret.ret (some c, some e)
            ∧ (l.Accept net w).2.st = (deadlineAnswer net l w c).2
            ∧ (l.Accept net w).2.trace
                = w.trace ++ [Call.Accept l.Listener (some c) none,
                    Call.Now (clockAfterAccept net l w).1,
                    Call.SetDeadline c ((clockAfterAccept net l w).1 + l.timeout)
                      (some e)]) := by
  constructor
  · rcases hu : (underlyingAccept net l w).1 with ⟨uc, ue⟩
    cases ue with
    | some e0 =>
      rw [Accept_of_error net l w uc e0 hu]
      exact ⟨_, rfl, by simp [Call.isConnClose]⟩
    | none =>
      cases uc with
      | none =>
        unfold underlyingAccept at hu
        simp only [ListenerWithTimeout.Accept, callAccept, callNow, hu]
        exact ⟨[Call.Accept l.Listener none none,
          Call.Now (net.Now (net.Accept l.Listener w.st).2).1], by simp,
          by simp [Call.isConnClose]⟩
      | some c0 =>
        rw [Accept_of_conn net l w c0 hu]
        exact ⟨_, rfl, by simp [Call.isConnClose]⟩
  · intro c e hu hd
    rw [Accept_of_conn net l w c hu, hd]
    exact ⟨rfl, rfl, rfl⟩

/-- C10 on the simulated network: timeout 5000, connection 1 accepted at clock 1000,
`SetDeadline` fails on connection 1: `Accept` returns connection 1 with that error, and
afterwards no deadline is in force and no connection is closed. -/
theorem Accept_never_closes_sim :
    (({ Listener := 7, timeout := 5000 } : ListenerWithTimeout).Accept simNet
        (simWorld [(some 1, none)] [1])).1
        = Ret.ret (some 1, some "set deadline: use of closed network connection")
      ∧ (({ Listener := 7, timeout := 5000 } : ListenerWithTimeout).Accept simNet
          (simWorld [(some 1, none)] [1])).2.st.deadlines = []
      ∧ (({ Listener := 7, timeout := 5000 } : ListenerWithTimeout).Accept simNet
          (simWorld [(some 1, none)] [1])).2.st.closedConns = [] := by
  have h := (Accept_never_closes simNet { Listener := 7, timeout := 5000 }
    (simWorld [(some 1, none)] [1])).2 1
    "set deadline: use of closed network connection" rfl (by decide)
  refine ⟨h.1, ?_, ?_⟩
  · rw [h.2.1]; decide
  · rw [h.2.1]; decide

/-- C8: `Close` on the wrapper makes exactly one call, the embedded listener's `Close`,
returns its result and leaves the world as that call left it; `Addr` on the wrapper makes
exactly one call, the embedded listener's `Addr`, returns its result and leaves the state
of the world (listener and connections with their deadlines) unchanged. -/
theorem Close_Addr_transparent {σ : Type} (net : Net σ) (l : ListenerWithTimeout)
    (w : World σ) :
    ((l.Close net w).1 = (net.Close l.Listener w.st).1
        ∧ (l.Close net w).2.st = (net.Close l.Listener w.st).2
        ∧ (l.Close net w).2.trace
            = w.trace ++ [Call.Close l.Listener (net.Close l.Listener w.st).1])
      ∧ ((l.Addr net w).1 = net.Addr l.Listener w.st
        ∧ (l.Addr net w).2.st = w.st
        ∧ (l.Addr net w).2.trace
            = w.trace ++ [Call.Addr l.Listener (net.Addr l.Listener w.st)]) :=
  ⟨⟨rfl, rfl, rfl⟩, ⟨rfl, rfl, rfl⟩⟩

/-! ## Claims on `main` -/

/-- C4: when the engine is built and the port is bound to listener `s`, `main` calls
`Serve` on `servedListener cfg s`, which is the `ListenerWithTimeout` wrapping `s` with
timeout exactly `cfg.ConnectionTimeout` if and only if that timeout is positive, and is `s`
itself otherwise; `Accept` on `s` itself makes the embedded `Accept` call only, so no
deadline is set. -/
theorem served_listener_wrapped_iff {σ ρ sv : Type} (eng : Engine σ ρ sv) (net : Net σ)
    (permit : String → ρ) (getenv : String → String) (cfg : params) (w w1 : World σ)
    (server : sv) (s : Sock)
    (hNew : eng.New (socks5conf permit getenv cfg) = (server, none))
    (hListen : callListen net "tcp" (":" ++ cfg.Port) w = (ListenResult.ok s, w1)) :
    (main eng net permit getenv cfg w).2
        = (eng.Serve server (servedListener cfg s)
            { st := w1.st, trace := w1.trace ++ [Call.Serve (servedListener cfg s)] }).2
      ∧ (0 < cfg.ConnectionTimeout ↔
          servedListener cfg s
            = Listener.withTimeout { Listener := s, timeout := cfg.ConnectionTimeout })
      ∧ (∀ l, servedListener cfg s = Listener.withTimeout l →
          l = { Listener := s, timeout := cfg.ConnectionTimeout })
      ∧ (cfg.ConnectionTimeout ≤ 0 ↔ servedListener cfg s = Listener.bound s)
      ∧ (∀ w0 : World σ, Listener.Accept net (Listener.bound s) w0
          = (Ret.ret (net.Accept s w0.st).1,
              { st := (net.Accept s w0.st).2,
                trace := w0.trace
                  ++ [Call.Accept s (net.Accept s w0.st).1.1 (net.Accept s w0.st).1.2] })) := by
  refine ⟨?_, ?_, ?_, ?_, fun w0 => rfl⟩
  · simp only [main, hNew, hListen, callServe]
    rcases eng.Serve server (servedListener cfg s)
        { st := w1.st, trace := w1.trace ++ [Call.Serve (servedListener cfg s)] }
      with ⟨r, w2⟩
    cases r with
    | returned err => cases err <;> rfl
    | serving => rfl
    | panicked => rfl
  · unfold servedListener
    by_cases h : cfg.ConnectionTimeout > 0 <;> simp [h]
  · intro l hl
    unfold servedListener at hl
    by_cases h : cfg.ConnectionTimeout > 0
    · simp only [h, if_true, Listener.withTimeout.injEq] at hl
      exact hl.symm
    · simp [h] at hl
  · unfold servedListener
    by_cases h : cfg.ConnectionTimeout > 0
    · simp only [h, if_true]
      constructor
      · intro h2; exact absurd h (not_lt.mpr h2)
      · intro h2; simp at h2
    · simp only [h, if_false]
      constructor
      · intro _; trivial
      · intro _; exact not_lt.mp h

/-- C4 on the simulated network: with timeout 0 `main` serves the bound listener 7 itself,
with timeout 5000 it serves the wrapper of listener 7 with timeout 5000. -/
theorem served_listener_wrapped_iff_sim :
    servedListener (cfgOf "" "" "" 0) 7 = Listener.bound 7
      ∧ servedListener (cfgOf "" "" "" 5000) 7
          = Listener.withTimeout { Listener := 7, timeout := 5000 } :=
  ⟨(served_listener_wrapped_iff (loopEngine DestinationPolicy simNet 2) simNet
      PermitDestAddrPattern (envOf "" "") (cfgOf "" "" "" 0) (simWorld [] [])
      { st := (simWorld [] []).st, trace := [Call.Listen "tcp" ":1080" (ListenResult.ok 7)] }
      (socks5conf PermitDestAddrPattern (envOf "" "") (cfgOf "" "" "" 0)) 7
      rfl (by decide)).2.2.2.1.1 (by decide),
   (served_listener_wrapped_iff (loopEngine DestinationPolicy simNet 2) simNet
      PermitDestAddrPattern (envOf "" "") (cfgOf "" "" "" 5000) (simWorld [] [])
      { st := (simWorld [] []).st, trace := [Call.Listen "tcp" ":1080" (ListenResult.ok 7)] }
      (socks5conf PermitDestAddrPattern (envOf "" "") (cfgOf "" "" "" 5000)) 7
      rfl (by decide)).2.1.1 (by decide)⟩

/-- C7, as stated, fails under an accept loop that returns the first `Accept` error. With
no timeout, a failing embedded `Accept` ends the process through `log.Fatal` while a
second connection is still waiting to be accepted; with timeout 5000, a failing
`SetDeadline` on the first connection ends the process likewise. -/
theorem accept_error_is_fatal_sim :
    (main (loopEngine DestinationPolicy simNet 3) simNet PermitDestAddrPattern (envOf "" "")
        (cfgOf "" "" "" 0) (simWorld [(none, some "accept: EMFILE"), (some 2, none)] [])).1
        = Exit.fatal "accept: EMFILE"
      ∧ (main (loopEngine DestinationPolicy simNet 3) simNet PermitDestAddrPattern
          (envOf "" "") (cfgOf "" "" "" 0)
          (simWorld [(none, some "accept: EMFILE"), (some 2, none)] [])).2.st.script
          = [(some 2, none)]
      ∧ (main (loopEngine DestinationPolicy simNet 3) simNet PermitDestAddrPattern
          (envOf "" "") (cfgOf "" "" "" 5000)
          (simWorld [(some 1, none), (some 2, none)] [1])).1
          = Exit.fatal "set deadline: use of closed network connection"
      ∧ (main (loopEngine DestinationPolicy simNet 3) simNet PermitDestAddrPattern
          (envOf "" "") (cfgOf "" "" "" 5000)
          (simWorld [(some 1, none), (some 2, none)] [1])).2.st.script
          = [(some 2, none)] := by
  decide

/-- C7, amended: once the engine is built and the port is bound, the process is ended by
`log.Fatal(e)` exactly when `Serve` returns the non-nil error `e`, and it stays alive in
`Serve` exactly when `Serve` has not returned; `Accept` hands its error back to the serve
loop as a return value, and an accept loop that returns the first `Accept` error returns it
from `Serve`. -/
theorem fatal_iff_serve_error {σ ρ sv : Type} (eng : Engine σ ρ sv) (net : Net σ)
    (permit : String → ρ) (getenv : String → String) (cfg : params) (w w1 : World σ)
    (server : sv) (s : Sock)
    (hNew : eng.New (socks5conf permit getenv cfg) = (server, none))
    (hListen : callListen net "tcp" (":" ++ cfg.Port) w = (ListenResult.ok s, w1)) :
    (∀ e, (main eng net permit getenv cfg w).1 = Exit.fatal e ↔
        (callServe eng server (servedListener cfg s) w1).1 = ServeResult.returned (some e))
      ∧ ((main eng net permit getenv cfg w).1 = Exit.serving ↔
          (callServe eng server (servedListener cfg s) w1).1 = ServeResult.serving)
      ∧ (∀ (fuel : Nat) (l : Listener) (w0 : World σ) (conn : Option Conn) (e : Err),
          (Listener.Accept net l w0).1 = Ret.ret (conn, some e) →
            (acceptLoop net (fuel + 1) l w0).1 = ServeResult.returned (some e)) := by
  refine ⟨fun e => ?_, ?_, fun fuel l w0 conn e h => ?_⟩
  · simp only [main, hNew, hListen]
    rcases callServe eng server (servedListener cfg s) w1 with ⟨r, w2⟩
    cases r with
    | returned err => cases err <;> simp
    | serving => simp
    | panicked => simp
  · simp only [main, hNew, hListen]
    rcases callServe eng server (servedListener cfg s) w1 with ⟨r, w2⟩
    cases r with
    | returned err => cases err <;> simp
    | serving => simp
    | panicked => simp
  · rcases hA : Listener.Accept net l w0 with ⟨r, w2⟩
    rw [hA] at h
    simp only at h
    subst h
    simp only [acceptLoop, hA]

/-- C7 amended, on the simulated network with the accept loop as engine: the embedded
`Accept` fails with "accept: EMFILE", `Serve` returns that error, and `main` ends the
process with it. -/
theorem fatal_iff_serve_error_sim :
    (main (loopEngine DestinationPolicy simNet 3) simNet PermitDestAddrPattern (envOf "" "")
        (cfgOf "" "" "" 0) (simWorld [(none, some "accept: EMFILE")] [])).1
      = Exit.fatal "accept: EMFILE" :=
  ((fatal_iff_serve_error (loopEngine DestinationPolicy simNet 3) simNet
      PermitDestAddrPattern (envOf "" "") (cfgOf "" "" "" 0)
      (simWorld [(none, some "accept: EMFILE")] [])
      { st := (simWorld [(none, some "accept: EMFILE")] []).st,
        trace := [Call.Listen "tcp" ":1080" (ListenResult.ok 7)] }
      (socks5conf PermitDestAddrPattern (envOf "" "") (cfgOf "" "" "" 0)) 7
      rfl (by decide)).1 "accept: EMFILE").2 (by decide)

/-! ## Claims on the destination policy -/

/-- C6: for the policy built from the pattern `*.S`, `Allow` is true exactly when the host,
without case, is a non-empty leading part followed by `.S`, whatever the port; so
`*.example.com` allows `a.example.com` and `a.b.example.com` and denies `example.com` and
`notexample.com`, and `*.corp.internal` allows `db.corp.internal` and `DB.CORP.INTERNAL`
and denies `corp.internal`. -/
theorem Allow_wildcard_iff :
    (∀ (S host : String) (port : Int),
        (PermitDestAddrPattern ("*." ++ S)).Allow { host := host, port := port } = true ↔
          ∃ pre : List Char, pre ≠ [] ∧ lower host = pre ++ '.' :: lower S)
      ∧ (∀ (S host : String) (port port2 : Int),
          (PermitDestAddrPattern ("*." ++ S)).Allow { host := host, port := port }
            = (PermitDestAddrPattern ("*." ++ S)).Allow { host := host, port := port2 })
      ∧ (∀ port : Int,
          (PermitDestAddrPattern "*.example.com").Allow
              { host := "a.example.com", port := port } = true
            ∧ (PermitDestAddrPattern "*.example.com").Allow
                { host := "a.b.example.com", port := port } = true
            ∧ (PermitDestAddrPattern "*.example.com").Allow
                { host := "example.com", port := port } = false
            ∧ (PermitDestAddrPattern "*.example.com").Allow
                { host := "notexample.com", port := port } = false
            ∧ (PermitDestAddrPattern "*.corp.internal").Allow
                { host := "db.corp.internal", port := port } = true
            ∧ (PermitDestAddrPattern "*.corp.internal").Allow
                { host := "DB.CORP.INTERNAL", port := port } = true
            ∧ (PermitDestAddrPattern "*.corp.internal").Allow
                { host := "corp.internal", port := port } = false) := by
  refine ⟨fun S host port => ?_, fun S host port port2 => ?_, fun port => ?_⟩
  · rw [Allow_wildcard]
    simp only [Bool.and_eq_true, decide_eq_true_eq, List.isSuffixOf_iff_suffix]
    constructor
    · rintro ⟨hlen, pre, hpre⟩
      refine ⟨pre, ?_, hpre.symm⟩
      rintro rfl
      rw [← hpre] at hlen
      simp at hlen
    · rintro ⟨pre, hne, hpre⟩
      refine ⟨?_, pre, hpre.symm⟩
      rw [hpre, List.length_append]
      have : 0 < pre.length := List.length_pos.mpr hne
      omega
  · rw [Allow_wildcard, Allow_wildcard]
  · refine ⟨rfl, rfl, rfl, rfl, rfl, rfl, rfl⟩

end Socks5Server
